import Mathlib

/-!
Verification of the AI Gateway & Response Reconciliation Engine of the
docmate backend (packages/backend/app/services/ai_proxy.py, with the
pydantic models of packages/backend/app/models/api.py).

Python strings are modelled as lists of characters (`PyStr`); JSON values
as the inductive `Json`; a raised Python exception as the `Except.error`
case of `Except PyErr _`.  The two external libraries the service leans
on are modelled at their call boundary:

* CPython `json.loads` appears as an explicit parameter
  `loads : PyStr → Option Json`; `none` models a raised
  `json.JSONDecodeError`, exactly the exception class the source catches
  around every parsing strategy.
* `difflib.SequenceMatcher(None, a, b).get_opcodes()` appears as the
  opcode list the matcher hands back; `getOpcodesSpec` states the output
  contract that difflib documents for that list, and an `Option` models
  the defensive try/except wrapped around the matcher in the source
  (`none` = the matcher raised).

Everything else is translated from the source line by line.
-/

abbrev PyStr := List Char

/-- A raised Python exception, identified by a short label. -/
abbrev PyErr := String

/-- Python `str.strip()`: drop whitespace from both ends. -/
def pyStrip (s : PyStr) : PyStr :=
  ((s.dropWhile Char.isWhitespace).reverse.dropWhile Char.isWhitespace).reverse

/-- A JSON value as produced by `json.loads` (object keys kept in
document order; Python dicts have unique keys). -/
inductive Json where
  | null
  | bool (b : Bool)
  | num (n : Int)
  | str (s : PyStr)
  | arr (elems : List Json)
  | obj (fields : List (PyStr × Json))

/-- Key membership in the field list of a JSON object. -/
def containsKeyB (fields : List (PyStr × Json)) (k : PyStr) : Bool :=
  fields.any (fun kv => kv.1 == k)

/-- Python `k in v` for a string `k`: key test on a dict, membership on a
list (a non-string element never equals a string), substring test on a
string, `TypeError` on non-iterable values. -/
def pyInStr (k : PyStr) : Json → Except PyErr Bool
  | .obj fields => .ok (containsKeyB fields k)
  | .arr elems =>
      .ok (elems.any (fun e => match e with | .str s => s == k | _ => false))
  | .str s => .ok (containsSub k s)
  | _ => .error "TypeError: argument not iterable"
where
  /-- `k` occurs as a contiguous substring of `s`. -/
  containsSub (k : PyStr) : PyStr → Bool
    | [] => k.isPrefixOf []
    | c :: rest => k.isPrefixOf (c :: rest) || containsSub k rest

/-- Python `v.get(key, default)`: defined on dicts only;
`AttributeError` on every other value. -/
def pyGet (v : Json) (k : PyStr) (dflt : Json) : Except PyErr Json :=
  match v with
  | .obj fields =>
      match fields.find? (fun kv => kv.1 == k) with
      | some kv => .ok kv.2
      | none => .ok dflt
  | _ => .error "AttributeError: object has no attribute get"

/-- The opening token of the fenced-block pattern at ai_proxy.py:294. -/
def fenceOpen : PyStr := "```json".data

/-- The closing token of the fenced-block pattern. -/
def fenceClose : PyStr := "```".data

/-- Content strictly before the first occurrence of three backticks,
`none` when no such occurrence exists. -/
def splitAtFence : PyStr → Option PyStr
  | [] => none
  | c :: rest =>
      if fenceClose.isPrefixOf (c :: rest) then some []
      else (splitAtFence rest).map (fun tail => c :: tail)

/-- Model of the regex search at ai_proxy.py:294-295 (the fenced-block
pattern with DOTALL): the leftmost match starts at the first occurrence
of the opening token that is followed by three backticks; lazy matching
ends the group at the earliest such closing token.  The returned text is
the raw span between the two tokens; the source strips it before
parsing, which yields the same string the lazily matched, stripped group
would give. -/
def searchFencedJson : PyStr → Option PyStr
  | [] => none
  | c :: rest =>
      if fenceOpen.isPrefixOf (c :: rest) then
        match splitAtFence ((c :: rest).drop fenceOpen.length) with
        | some content => some content
        | none => searchFencedJson rest
      else searchFencedJson rest

/-- The open-brace character, written by code point. -/
def lbrace : Char := Char.ofNat 123

/-- The close-brace character, written by code point. -/
def rbrace : Char := Char.ofNat 125

/-- Contiguous pySlice of a list between two indices. -/
def pySlice (l : PyStr) (a b : Nat) : PyStr := (l.drop a).take (b - a)

/-- Model of the regex search at ai_proxy.py:303-304: a greedy
brace-to-brace pattern under DOTALL matches from the first open brace to
the last close brace of the whole text, provided the latter comes after
the former. -/
def searchBrace (t : PyStr) : Option PyStr :=
  match t.findIdx? (fun c => c == lbrace) with
  | none => none
  | some i =>
      match t.reverse.findIdx? (fun c => c == rbrace) with
      | none => none
      | some revJ =>
          let j := t.length - 1 - revJ
          if i < j then some (pySlice t i (j + 1)) else none

/-- Strategy 1 (ai_proxy.py:287-291): parse the whole stripped reply. -/
def strategy1 (loads : PyStr → Option Json) (t : PyStr) : Option Json :=
  loads (pyStrip t)

/-- Strategy 2 (ai_proxy.py:293-300): parse the stripped contents of a
fenced block labelled json, when such a block exists. -/
def strategy2 (loads : PyStr → Option Json) (t : PyStr) : Option Json :=
  match searchFencedJson t with
  | some grp => loads (pyStrip grp)
  | none => none

/-- Strategy 3 (ai_proxy.py:302-309): parse the first-open-brace to
last-close-brace span, unstripped, when braces are present. -/
def strategy3 (loads : PyStr → Option Json) (t : PyStr) : Option Json :=
  match searchBrace t with
  | some grp => loads grp
  | none => none

/-- The diagnostic record built at ai_proxy.py:313-316 when every
strategy has failed. -/
def errorRecord (t : PyStr) : Json :=
  .obj [("error".data, .str ("Failed to parse JSON response".data)),
        ("raw_response".data, .str t)]

/-- Embedding of `AIProxyService._extract_json_from_response`
(ai_proxy.py:277-316): a deterministic fallback chain; each strategy's
`json.JSONDecodeError` is caught and treated as that strategy's failure
(modelled by `loads` returning `none`), and when every strategy fails
the diagnostic record is returned instead of raising. -/
def extractJson (loads : PyStr → Option Json) (responseText : PyStr) : Json :=
  match strategy1 loads responseText with
  | some v => v
  | none =>
      match strategy2 loads responseText with
      | some v => v
      | none =>
          match strategy3 loads responseText with
          | some v => v
          | none => errorRecord responseText

/-- When all three strategies fail, the extractor returns the diagnostic
record. -/
theorem extractJson_allFail (loads : PyStr → Option Json) (t : PyStr)
    (h1 : strategy1 loads t = none)
    (h2 : strategy2 loads t = none)
    (h3 : strategy3 loads t = none) :
    extractJson loads t = errorRecord t := by
  simp [extractJson, h1, h2, h3]

/-- The tag of a difflib opcode. -/
inductive DiffTag where
  | equal
  | delete
  | insert
  | replace
deriving DecidableEq

/-- One opcode of `SequenceMatcher.get_opcodes()`: a tag with the spans
it covers on the original (i1,i2) and modified (j1,j2) side. -/
structure Opcode where
  tag : DiffTag
  i1 : Nat
  i2 : Nat
  j1 : Nat
  j2 : Nat
deriving DecidableEq

/-- The kind of an emitted diff segment (models.api.DiffSegment.type,
whose value is one of the strings equal, insert, delete). -/
inductive SegKind where
  | equal
  | insert
  | delete
deriving DecidableEq

/-- Embedding of models.api.DiffSegment. -/
structure DiffSegment where
  type : SegKind
  value : PyStr
deriving DecidableEq

/-- The per-tag span conditions difflib guarantees for each opcode it
emits: an equal opcode covers identical nonempty spans of both sides, a
delete opcode a nonempty span of the original only, an insert opcode a
nonempty span of the modified only, a replace opcode nonempty spans of
both. -/
def tagOK (a b : PyStr) (op : Opcode) : Bool :=
  match op.tag with
  | .equal =>
      decide (op.i1 < op.i2) && (op.i2 - op.i1 == op.j2 - op.j1) &&
      (pySlice a op.i1 op.i2 == pySlice b op.j1 op.j2)
  | .delete => decide (op.i1 < op.i2) && (op.j1 == op.j2)
  | .insert => (op.i1 == op.i2) && decide (op.j1 < op.j2)
  | .replace => decide (op.i1 < op.i2) && decide (op.j1 < op.j2)

/-- The contiguity difflib documents for its opcode list: the first
opcode starts at (0,0), each opcode starts where the previous one
stopped, spans never move backwards, and the final opcode stops at the
two lengths.  Indices i and j carry the current position. -/
def chainOK (a b : PyStr) : Nat → Nat → List Opcode → Bool
  | i, j, [] => (i == a.length) && (j == b.length)
  | i, j, op :: rest =>
      (op.i1 == i) && (op.j1 == j) && decide (op.i1 ≤ op.i2) &&
      decide (op.j1 ≤ op.j2) && tagOK a b op && chainOK a b op.i2 op.j2 rest

/-- Adjacent opcodes never agree on being equal-tagged: get_opcodes
emits exactly one non-equal opcode between consecutive matching blocks
and one equal opcode per block, and adjacent matching blocks are
merged. -/
def altOK : List Opcode → Bool
  | [] => true
  | [_] => true
  | x :: y :: rest =>
      ((x.tag == DiffTag.equal) != (y.tag == DiffTag.equal)) && altOK (y :: rest)

/-- The output contract of
`difflib.SequenceMatcher(None, a, b).get_opcodes()`. -/
def getOpcodesSpec (a b : PyStr) (ops : List Opcode) : Bool :=
  chainOK a b 0 0 ops && altOK ops

/-- The segments the loop at ai_proxy.py:341-352 emits for one opcode:
slices of the original for equal and delete tags, a slice of the
modified for insert tags, and for a replace tag a delete segment
followed by an insert segment, each guarded by nonemptiness of its
span. -/
def opSegments (original modified : PyStr) (op : Opcode) : List DiffSegment :=
  match op.tag with
  | .equal => [⟨.equal, pySlice original op.i1 op.i2⟩]
  | .delete => [⟨.delete, pySlice original op.i1 op.i2⟩]
  | .insert => [⟨.insert, pySlice modified op.j1 op.j2⟩]
  | .replace =>
      (if op.i1 < op.i2 then [⟨.delete, pySlice original op.i1 op.i2⟩] else []) ++
      (if op.j1 < op.j2 then [⟨.insert, pySlice modified op.j1 op.j2⟩] else [])

/-- Embedding of `AIProxyService._calculate_diff` (ai_proxy.py:323-362).
`matcherOpcodes` is what the try block obtains from difflib:
`some ops` is the opcode list of `get_opcodes()`, and `none` models the
matcher raising, in which case the except branch at ai_proxy.py:356-362
degrades to the single delete-plus-insert pair. -/
def calculateDiff (matcherOpcodes : Option (List Opcode))
    (original modified : PyStr) : List DiffSegment :=
  match matcherOpcodes with
  | some ops => ops.flatMap (opSegments original modified)
  | none => [⟨.delete, original⟩, ⟨.insert, modified⟩]

/-- Concatenation of the values of the equal and delete segments, in
order. -/
def origSide (segs : List DiffSegment) : PyStr :=
  (segs.filter (fun s => s.type == SegKind.equal || s.type == SegKind.delete)).flatMap
    (fun s => s.value)

/-- Concatenation of the values of the equal and insert segments, in
order. -/
def modSide (segs : List DiffSegment) : PyStr :=
  (segs.filter (fun s => s.type == SegKind.equal || s.type == SegKind.insert)).flatMap
    (fun s => s.value)

theorem pySlice_append (l : PyStr) (i k j : Nat) (h1 : i ≤ k) (h2 : k ≤ j) :
    pySlice l i k ++ pySlice l k j = pySlice l i j := by
  unfold pySlice
  have hj : j - i = (k - i) + (j - k) := by omega
  rw [hj, List.take_add]
  congr 1
  rw [List.drop_drop]
  have hk : i + (k - i) = k := by omega
  rw [hk]

theorem chainOK_le (a b : PyStr) :
    ∀ (ops : List Opcode) (i j : Nat), chainOK a b i j ops = true →
      i ≤ a.length ∧ j ≤ b.length := by
  intro ops
  induction ops with
  | nil =>
      intro i j h
      simp only [chainOK, Bool.and_eq_true, beq_iff_eq] at h
      omega
  | cons op rest ih =>
      intro i j h
      simp only [chainOK, Bool.and_eq_true, beq_iff_eq, decide_eq_true_eq] at h
      obtain ⟨⟨⟨⟨⟨hi1, hj1⟩, hii⟩, hjj⟩, _⟩, hrest⟩ := h
      have := ih op.i2 op.j2 hrest
      omega

theorem origSide_append (xs ys : List DiffSegment) :
    origSide (xs ++ ys) = origSide xs ++ origSide ys := by
  simp [origSide, List.filter_append]

theorem modSide_append (xs ys : List DiffSegment) :
    modSide (xs ++ ys) = modSide xs ++ modSide ys := by
  simp [modSide, List.filter_append]

theorem reconstruct_aux (a b : PyStr) :
    ∀ (ops : List Opcode) (i j : Nat), chainOK a b i j ops = true →
      origSide (ops.flatMap (opSegments a b)) = pySlice a i a.length ∧
      modSide (ops.flatMap (opSegments a b)) = pySlice b j b.length := by
  intro ops
  induction ops with
  | nil =>
      intro i j h
      simp only [chainOK, Bool.and_eq_true, beq_iff_eq] at h
      obtain ⟨hi, hj⟩ := h
      subst hi; subst hj
      simp [origSide, modSide, pySlice, Nat.sub_self]
  | cons op rest ih =>
      intro i j h
      simp only [chainOK, Bool.and_eq_true, beq_iff_eq, decide_eq_true_eq] at h
      obtain ⟨⟨⟨⟨⟨hi1, hj1⟩, hii⟩, hjj⟩, htag⟩, hrest⟩ := h
      obtain ⟨hia, hjb⟩ := chainOK_le a b rest op.i2 op.j2 hrest
      obtain ⟨ihA, ihB⟩ := ih op.i2 op.j2 hrest
      rw [List.flatMap_cons, origSide_append, modSide_append, ihA, ihB]
      subst hi1; subst hj1
      cases hop : op.tag with
      | equal =>
          simp only [tagOK, hop, Bool.and_eq_true, beq_iff_eq, decide_eq_true_eq] at htag
          obtain ⟨⟨_, _⟩, hslices⟩ := htag
          constructor
          · simp [opSegments, hop, origSide]
            exact pySlice_append a op.i1 op.i2 a.length hii hia
          · simp [opSegments, hop, modSide]
            rw [hslices]
            exact pySlice_append b op.j1 op.j2 b.length hjj hjb
      | delete =>
          simp only [tagOK, hop, Bool.and_eq_true, beq_iff_eq, decide_eq_true_eq] at htag
          obtain ⟨_, hj12⟩ := htag
          rw [hj12]
          constructor
          · simp [opSegments, hop, origSide]
            exact pySlice_append a op.i1 op.i2 a.length hii hia
          · simp [opSegments, hop, modSide]
      | insert =>
          simp only [tagOK, hop, Bool.and_eq_true, beq_iff_eq, decide_eq_true_eq] at htag
          obtain ⟨hi12, _⟩ := htag
          rw [hi12]
          constructor
          · simp [opSegments, hop, origSide]
          · simp [opSegments, hop, modSide]
            exact pySlice_append b op.j1 op.j2 b.length hjj hjb
      | replace =>
          simp only [tagOK, hop, Bool.and_eq_true, decide_eq_true_eq] at htag
          obtain ⟨hi12, hj12⟩ := htag
          constructor
          · simp [opSegments, hop, if_pos hi12, if_pos hj12, origSide]
            exact pySlice_append a op.i1 op.i2 a.length hii hia
          · simp [opSegments, hop, if_pos hi12, if_pos hj12, modSide]
            exact pySlice_append b op.j1 op.j2 b.length hjj hjb

/-- C1: for every pair of strings, the diff computation returns segments
whose equal-and-delete values concatenate to the original string and
whose equal-and-insert values concatenate to the modified string — both
when difflib returns an opcode list satisfying its documented contract
and when the defensive fallback fires. -/
theorem calculateDiff_reconstructs (original modified : PyStr)
    (mo : Option (List Opcode))
    (h : mo = none ∨
      ∃ ops, mo = some ops ∧ getOpcodesSpec original modified ops = true) :
    origSide (calculateDiff mo original modified) = original ∧
    modSide (calculateDiff mo original modified) = modified := by
  rcases h with rfl | ⟨ops, rfl, hspec⟩
  · constructor <;> simp [calculateDiff, origSide, modSide]
  · simp only [getOpcodesSpec, Bool.and_eq_true] at hspec
    obtain ⟨hchain, _⟩ := hspec
    have := reconstruct_aux original modified ops 0 0 hchain
    simpa [calculateDiff, pySlice] using this

/-- Original string of the worked diff example. -/
def demoOriginal : PyStr := "abcde".data

/-- Modified string of the worked diff example. -/
def demoModified : PyStr := "abXde".data

/-- The opcodes difflib produces for the worked example: an equal run, a
one-character replacement, an equal run. -/
def demoOps : List Opcode :=
  [⟨.equal, 0, 2, 0, 2⟩, ⟨.replace, 2, 3, 2, 3⟩, ⟨.equal, 3, 5, 3, 5⟩]

theorem calculateDiff_reconstructs_witness :
    getOpcodesSpec demoOriginal demoModified demoOps = true ∧
    origSide (calculateDiff (some demoOps) demoOriginal demoModified) = demoOriginal ∧
    modSide (calculateDiff (some demoOps) demoOriginal demoModified) = demoModified :=
  ⟨by decide,
   calculateDiff_reconstructs demoOriginal demoModified (some demoOps)
     (Or.inr ⟨demoOps, rfl, by decide⟩)⟩

theorem chainOK_tags (a b : PyStr) :
    ∀ (ops : List Opcode) (i j : Nat), chainOK a b i j ops = true →
      ∀ op ∈ ops, tagOK a b op = true := by
  intro ops
  induction ops with
  | nil => intro i j _ op hop; cases hop
  | cons o rest ih =>
      intro i j h op hop
      simp only [chainOK, Bool.and_eq_true] at h
      obtain ⟨⟨⟨⟨⟨_, _⟩, _⟩, _⟩, htag⟩, hrest⟩ := h
      rcases List.mem_cons.mp hop with rfl | hop
      · exact htag
      · exact ih o.i2 o.j2 hrest op hop

theorem altOK_tail (op : Opcode) (rest : List Opcode)
    (h : altOK (op :: rest) = true) : altOK rest = true := by
  cases rest with
  | nil => rfl
  | cons y r =>
      simp only [altOK, Bool.and_eq_true] at h
      exact h.2

/-- Under the per-tag conditions, the segment chunk of one opcode is
nonempty, internally alternating, and its first and last segments are
equal-kind exactly when the opcode is equal-tagged. -/
theorem opSegments_shape (a b : PyStr) (op : Opcode) (h : tagOK a b op = true) :
    ∃ s t l, opSegments a b op = s :: l ∧
      (opSegments a b op).getLast? = some t ∧
      ((s.type = SegKind.equal) ↔ (op.tag = DiffTag.equal)) ∧
      ((t.type = SegKind.equal) ↔ (op.tag = DiffTag.equal)) ∧
      List.Chain' (fun u v : DiffSegment => u.type ≠ v.type) (opSegments a b op) := by
  cases hop : op.tag with
  | equal =>
      refine ⟨⟨.equal, pySlice a op.i1 op.i2⟩, ⟨.equal, pySlice a op.i1 op.i2⟩, [],
        ?_, ?_, ?_, ?_, ?_⟩ <;> simp [opSegments, hop]
  | delete =>
      refine ⟨⟨.delete, pySlice a op.i1 op.i2⟩, ⟨.delete, pySlice a op.i1 op.i2⟩, [],
        ?_, ?_, ?_, ?_, ?_⟩ <;> simp [opSegments, hop]
  | insert =>
      refine ⟨⟨.insert, pySlice b op.j1 op.j2⟩, ⟨.insert, pySlice b op.j1 op.j2⟩, [],
        ?_, ?_, ?_, ?_, ?_⟩ <;> simp [opSegments, hop]
  | replace =>
      simp only [tagOK, hop, Bool.and_eq_true, decide_eq_true_eq] at h
      obtain ⟨hi12, hj12⟩ := h
      refine ⟨⟨.delete, pySlice a op.i1 op.i2⟩, ⟨.insert, pySlice b op.j1 op.j2⟩,
        [⟨.insert, pySlice b op.j1 op.j2⟩], ?_, ?_, ?_, ?_, ?_⟩ <;>
        simp [opSegments, hop, if_pos hi12, if_pos hj12, List.chain'_cons]

theorem chain'_segsOf (a b : PyStr) :
    ∀ ops : List Opcode, (∀ op ∈ ops, tagOK a b op = true) → altOK ops = true →
      List.Chain' (fun u v : DiffSegment => u.type ≠ v.type)
        (ops.flatMap (opSegments a b)) := by
  intro ops
  induction ops with
  | nil => intro _ _; simp
  | cons op rest ih =>
      intro htags halt
      rw [List.flatMap_cons, List.chain'_append]
      obtain ⟨s, t, l, hcons, hlast, hsiff, htiff, hchunk⟩ :=
        opSegments_shape a b op (htags op (List.mem_cons_self op rest))
      refine ⟨hchunk, ih (fun o ho => htags o (List.mem_cons_of_mem op ho))
        (altOK_tail op rest halt), ?_⟩
      intro x hx y hy
      cases rest with
      | nil => simp at hy
      | cons op2 rest2 =>
          obtain ⟨s2, t2, l2, hcons2, _, hs2iff, _, _⟩ :=
            opSegments_shape a b op2 (htags op2 (by simp))
          rw [List.flatMap_cons, hcons2] at hy
          simp only [List.cons_append, List.head?_cons, Option.mem_def,
            Option.some.injEq] at hy
          rw [hlast, Option.mem_def, Option.some.injEq] at hx
          subst hx; subst hy
          simp only [altOK, Bool.and_eq_true, bne_iff_ne, ne_eq, beq_iff_eq] at halt
          intro hfalse
          rcases halt with ⟨hne, _⟩
          by_cases hq : op.tag = DiffTag.equal
          · have h1 : t.type = SegKind.equal := htiff.mpr hq
            have h2 : op2.tag ≠ DiffTag.equal := by
              intro hc
              exact hne (by simp [hq, hc])
            have h3 : s2.type ≠ SegKind.equal := fun hc => h2 (hs2iff.mp hc)
            exact h3 (hfalse ▸ h1)
          · have h1 : t.type ≠ SegKind.equal := fun hc => hq (htiff.mp hc)
            have h2 : op2.tag = DiffTag.equal := by
              by_contra hc
              exact hne (by simp [hq, hc])
            have h3 : s2.type = SegKind.equal := hs2iff.mpr h2
            exact h1 (hfalse ▸ h3.symm ▸ h3)

/-- C9: the diff computation never returns two adjacent segments of the
same kind — neither on the normal path (including the delete-before-
insert pair emitted for a replacement) nor on the defensive fallback
pair. -/
theorem calculateDiff_noAdjacentSameKind (original modified : PyStr)
    (mo : Option (List Opcode))
    (h : mo = none ∨
      ∃ ops, mo = some ops ∧ getOpcodesSpec original modified ops = true) :
    List.Chain' (fun u v : DiffSegment => u.type ≠ v.type)
      (calculateDiff mo original modified) := by
  rcases h with rfl | ⟨ops, rfl, hspec⟩
  · simp [calculateDiff, List.chain'_cons]
  · simp only [getOpcodesSpec, Bool.and_eq_true] at hspec
    obtain ⟨hchain, halt⟩ := hspec
    simpa [calculateDiff] using
      chain'_segsOf original modified ops
        (chainOK_tags original modified ops 0 0 hchain) halt

theorem calculateDiff_noAdjacentSameKind_witness :
    getOpcodesSpec demoOriginal demoModified demoOps = true ∧
    List.Chain' (fun u v : DiffSegment => u.type ≠ v.type)
      (calculateDiff (some demoOps) demoOriginal demoModified) :=
  ⟨by decide,
   calculateDiff_noAdjacentSameKind demoOriginal demoModified (some demoOps)
     (Or.inr ⟨demoOps, rfl, by decide⟩)⟩

/-- Python subscription `v[k]` with a string key: lookup on a dict
(`KeyError` when absent), `TypeError` on other values. -/
def pyIndexKey (v : Json) (k : PyStr) : Except PyErr Json :=
  match v with
  | .obj fields =>
      match fields.find? (fun kv => kv.1 == k) with
      | some kv => .ok kv.2
      | none => .error "KeyError"
  | _ => .error "TypeError: value is not subscriptable by string"

/-- Python subscription `v[n]` with an integer index: element of a list
(`IndexError` past the end), one-character string of a string, `KeyError`
on a dict whose keys are strings, `TypeError` otherwise. -/
def pyIndexNat (v : Json) (n : Nat) : Except PyErr Json :=
  match v with
  | .arr elems =>
      match elems.drop n with
      | e :: _ => .ok e
      | [] => .error "IndexError"
  | .str s =>
      match s.drop n with
      | c :: _ => .ok (.str [c])
      | [] => .error "IndexError"
  | .obj _ => .error "KeyError"
  | _ => .error "TypeError: value is not subscriptable"

/-- The reply-envelope access at ai_proxy.py:231:
`data["choices"][0]["message"]["content"]`. -/
def envelopeContent (data : Json) : Except PyErr Json := do
  let choices ← pyIndexKey data ("choices".data)
  let first ← pyIndexNat choices 0
  let message ← pyIndexKey first ("message".data)
  pyIndexKey message ("content".data)

/-- What one attempt of the retry loop observes from the endpoint: a
transport error raised by the HTTP client (`httpx.RequestError`), a
non-success status with its body text, or a success status carrying the
decoded JSON body (`none` when the body is not decodable JSON, in which
case `response.json()` raises). -/
inductive AttemptOutcome where
  | transportError (msg : PyStr)
  | httpError (status : Nat) (body : PyStr)
  | success (data : Option Json)

/-- An attempt outcome that the loop treats as retryable. -/
def isFailure : AttemptOutcome → Bool
  | .transportError _ => true
  | .httpError _ _ => true
  | .success _ => false

/-- How one gateway call ends. -/
inductive CallResult where
  | ok (content : Json)
  | errEndpoint (status : Nat) (body : PyStr)
  | errTransport (msg : PyStr)
  | errEnvelope (e : PyErr)
  | errExhausted

/-- The observable behaviour of one gateway call: its result, how many
attempts were issued, and the backoff delays slept between attempts, in
order. -/
structure CallTrace where
  result : CallResult
  attempts : Nat
  sleeps : List Nat

/-- Embedding of the retry loop of `AIProxyService._call_ai_service`
(ai_proxy.py:216-275).  `remaining` counts the iterations the range
still holds, so `remaining = maxRetries - attempt`; the base case is the
loop running off the end, reaching the raise at ai_proxy.py:275.  On a
success status the loop returns the envelope content, and any exception
of the envelope access escapes (only `httpx.RequestError` is caught).
On a failure, the loop re-raises at the last attempt and otherwise falls
through to the backoff sleep of `2 ** attempt` time units. -/
def runAttempts (outcomes : Nat → AttemptOutcome) (maxRetries : Nat) :
    Nat → Nat → CallTrace
  | 0, _ => ⟨.errExhausted, 0, []⟩
  | remaining + 1, attempt =>
      match outcomes attempt with
      | .success odata =>
          (match odata with
           | none => ⟨.errEnvelope "JSONDecodeError", 1, []⟩
           | some data =>
               match envelopeContent data with
               | .ok content => ⟨.ok content, 1, []⟩
               | .error e => ⟨.errEnvelope e, 1, []⟩)
      | .httpError status body =>
          if attempt == maxRetries - 1 then ⟨.errEndpoint status body, 1, []⟩
          else
            let rest := runAttempts outcomes maxRetries remaining (attempt + 1)
            ⟨rest.result, rest.attempts + 1, 2 ^ attempt :: rest.sleeps⟩
      | .transportError msg =>
          if attempt == maxRetries - 1 then ⟨.errTransport msg, 1, []⟩
          else
            let rest := runAttempts outcomes maxRetries remaining (attempt + 1)
            ⟨rest.result, rest.attempts + 1, 2 ^ attempt :: rest.sleeps⟩

/-- One gateway call: the loop starts at attempt 0 with the full retry
budget. -/
def callAIService (maxRetries : Nat) (outcomes : Nat → AttemptOutcome) : CallTrace :=
  runAttempts outcomes maxRetries maxRetries 0

theorem range_pow_cons (attempt j : Nat) :
    2 ^ attempt :: (List.range j).map (fun t => 2 ^ (attempt + 1 + t)) =
    (List.range (j + 1)).map (fun t => 2 ^ (attempt + t)) := by
  rw [List.range_succ_eq_map, List.map_cons, List.map_map]
  have hhead : 2 ^ attempt = 2 ^ (attempt + 0) := by rw [Nat.add_zero]
  have htail : (List.range j).map (fun t => 2 ^ (attempt + 1 + t)) =
      (List.range j).map ((fun t => 2 ^ (attempt + t)) ∘ Nat.succ) := by
    apply List.map_congr_left
    intro t _
    simp only [Function.comp_apply]
    congr 1
    omega
  rw [← hhead, ← htail]

/-- Running the loop across `j` retryable failures reduces to running it
from attempt `attempt + j`, with `j` extra attempts counted and the `j`
backoff delays recorded in front. -/
theorem runAttempts_skip (outcomes : Nat → AttemptOutcome) (maxRetries : Nat) :
    ∀ (j remaining attempt : Nat), j < remaining →
      remaining + attempt = maxRetries →
      (∀ k, attempt ≤ k → k < attempt + j → isFailure (outcomes k) = true) →
      runAttempts outcomes maxRetries remaining attempt =
        ⟨(runAttempts outcomes maxRetries (remaining - j) (attempt + j)).result,
         (runAttempts outcomes maxRetries (remaining - j) (attempt + j)).attempts + j,
         (List.range j).map (fun t => 2 ^ (attempt + t)) ++
           (runAttempts outcomes maxRetries (remaining - j) (attempt + j)).sleeps⟩ := by
  intro j
  induction j with
  | zero =>
      intro remaining attempt _ _ _
      simp
  | succ j ih =>
      intro remaining attempt hj hsum hfail
      obtain ⟨r, rfl⟩ : ∃ r, remaining = r + 1 := ⟨remaining - 1, by omega⟩
      have hcond : (attempt == maxRetries - 1) = false := by
        rw [beq_eq_false_iff_ne]
        omega
      have hfa : isFailure (outcomes attempt) = true :=
        hfail attempt (Nat.le_refl attempt) (by omega)
      have harith1 : r - j = r + 1 - (j + 1) := by omega
      have harith2 : attempt + 1 + j = attempt + (j + 1) := by omega
      have hih := ih r (attempt + 1) (by omega) (by omega)
        (fun k hk1 hk2 => hfail k (by omega) (by omega))
      rw [harith1, harith2] at hih
      cases ho : outcomes attempt with
      | success d => rw [ho] at hfa; simp [isFailure] at hfa
      | httpError status body =>
          simp only [runAttempts, ho, hcond, Bool.false_eq_true, if_false, hih,
            CallTrace.mk.injEq]
          refine ⟨trivial, by omega, ?_⟩
          rw [← List.cons_append]
          rw [range_pow_cons attempt j]
      | transportError msg =>
          simp only [runAttempts, ho, hcond, Bool.false_eq_true, if_false, hih,
            CallTrace.mk.injEq]
          refine ⟨trivial, by omega, ?_⟩
          rw [← List.cons_append]
          rw [range_pow_cons attempt j]

theorem runAttempts_attempts_le (outcomes : Nat → AttemptOutcome) (maxRetries : Nat) :
    ∀ remaining attempt,
      (runAttempts outcomes maxRetries remaining attempt).attempts ≤ remaining := by
  intro remaining
  induction remaining with
  | zero => intro attempt; simp [runAttempts]
  | succ r ih =>
      intro attempt
      simp only [runAttempts]
      cases outcomes attempt with
      | success d =>
          cases d with
          | none => simp
          | some data => cases he : envelopeContent data <;> simp [he]
      | httpError status body =>
          by_cases hc : (attempt == maxRetries - 1) = true
          · simp [hc]
          · simp only [Bool.not_eq_true] at hc
            simp only [hc, Bool.false_eq_true, if_false]
            have := ih (attempt + 1)
            omega
      | transportError msg =>
          by_cases hc : (attempt == maxRetries - 1) = true
          · simp [hc]
          · simp only [Bool.not_eq_true] at hc
            simp only [hc, Bool.false_eq_true, if_false]
            have := ih (attempt + 1)
            omega

/-- C2: the gateway call issues at most `maxRetries` attempts; it
returns the reply of the first successful attempt, having slept
`2 ^ k` time units after each failed attempt `k` before it; and when
every attempt fails it raises a terminal error carrying the final
status and body, or the final transport message, having issued exactly
`maxRetries` attempts. -/
theorem callAIService_spec (maxRetries : Nat) (outcomes : Nat → AttemptOutcome) :
    (callAIService maxRetries outcomes).attempts ≤ maxRetries ∧
    (∀ j data content, j < maxRetries →
      (∀ k, k < j → isFailure (outcomes k) = true) →
      outcomes j = .success (some data) →
      envelopeContent data = .ok content →
      callAIService maxRetries outcomes =
        ⟨.ok content, j + 1, (List.range j).map (fun t => 2 ^ t)⟩) ∧
    ((∀ k, k < maxRetries → isFailure (outcomes k) = true) → 1 ≤ maxRetries →
      (callAIService maxRetries outcomes).attempts = maxRetries ∧
      (callAIService maxRetries outcomes).sleeps =
        (List.range (maxRetries - 1)).map (fun t => 2 ^ t) ∧
      ((∃ status body, outcomes (maxRetries - 1) = .httpError status body ∧
          (callAIService maxRetries outcomes).result = .errEndpoint status body) ∨
       (∃ msg, outcomes (maxRetries - 1) = .transportError msg ∧
          (callAIService maxRetries outcomes).result = .errTransport msg))) := by
  refine ⟨runAttempts_attempts_le outcomes maxRetries maxRetries 0, ?_, ?_⟩
  · intro j data content hj hfail hout henv
    have hskip := runAttempts_skip outcomes maxRetries j maxRetries 0 hj (by omega)
      (fun k hk1 hk2 => hfail k (by omega))
    obtain ⟨r, hr⟩ : ∃ r, maxRetries - j = r + 1 := ⟨maxRetries - j - 1, by omega⟩
    have h0j : 0 + j = j := by omega
    rw [hr, h0j] at hskip
    unfold callAIService
    rw [hskip]
    simp only [runAttempts, hout, henv, CallTrace.mk.injEq]
    refine ⟨trivial, by omega, ?_⟩
    simp [Nat.zero_add]
  · intro hfail h1
    have hskip := runAttempts_skip outcomes maxRetries (maxRetries - 1) maxRetries 0
      (by omega) (by omega) (fun k hk1 hk2 => hfail k (by omega))
    have hrm : maxRetries - (maxRetries - 1) = 1 := by omega
    have h0j : 0 + (maxRetries - 1) = maxRetries - 1 := by omega
    rw [hrm, h0j] at hskip
    have hlast : isFailure (outcomes (maxRetries - 1)) = true := hfail _ (by omega)
    have hcond : ((maxRetries - 1) == maxRetries - 1) = true := by
      rw [beq_iff_eq]
    unfold callAIService
    rw [hskip]
    cases ho : outcomes (maxRetries - 1) with
    | success d => rw [ho] at hlast; simp [isFailure] at hlast
    | httpError status body =>
        simp only [runAttempts, ho, hcond, if_true]
        refine ⟨by omega, by simp [Nat.zero_add], Or.inl ⟨status, body, rfl, rfl⟩⟩
    | transportError msg =>
        simp only [runAttempts, ho, hcond, if_true]
        refine ⟨by omega, by simp [Nat.zero_add], Or.inr ⟨msg, rfl, rfl⟩⟩

/-- A well-formed success envelope used in the worked examples. -/
def demoEnvelope : Json :=
  .obj [("choices".data,
    .arr [.obj [("message".data, .obj [("content".data, .str ("hi".data))])]])]

/-- Worked outcomes: a transport error, then a non-success status, then
success. -/
def demoOutcomesA : Nat → AttemptOutcome := fun k =>
  match k with
  | 0 => .transportError ("boom".data)
  | 1 => .httpError 500 ("bad gateway".data)
  | _ => .success (some demoEnvelope)

theorem callAIService_spec_witness :
    callAIService 3 demoOutcomesA = ⟨.ok (.str ("hi".data)), 3, [1, 2]⟩ := by
  have h := (callAIService_spec 3 demoOutcomesA).2.1 2 demoEnvelope
    (.str ("hi".data)) (by decide) (by decide) rfl rfl
  rw [h]
  rfl

/-- C8: a success status whose envelope is missing the expected fields
fails the call terminally at that attempt: the attempt count stops at
`j + 1` no matter how many retries remain. -/
theorem callAIService_malformedEnvelope (maxRetries : Nat)
    (outcomes : Nat → AttemptOutcome) (j : Nat) (data : Json) (e : PyErr)
    (hj : j < maxRetries)
    (hfail : ∀ k, k < j → isFailure (outcomes k) = true)
    (hout : outcomes j = .success (some data))
    (henv : envelopeContent data = .error e) :
    callAIService maxRetries outcomes =
      ⟨.errEnvelope e, j + 1, (List.range j).map (fun t => 2 ^ t)⟩ := by
  have hskip := runAttempts_skip outcomes maxRetries j maxRetries 0 hj (by omega)
    (fun k hk1 hk2 => hfail k (by omega))
  obtain ⟨r, hr⟩ : ∃ r, maxRetries - j = r + 1 := ⟨maxRetries - j - 1, by omega⟩
  have h0j : 0 + j = j := by omega
  rw [hr, h0j] at hskip
  unfold callAIService
  rw [hskip]
  simp only [runAttempts, hout, henv, CallTrace.mk.injEq]
  refine ⟨trivial, by omega, ?_⟩
  simp [Nat.zero_add]

/-- A success envelope with an empty choices list: the first-choice
access raises. -/
def demoBadEnvelope : Json := .obj [("choices".data, .arr [])]

/-- Worked outcomes: one non-success status, then a malformed success
envelope. -/
def demoOutcomesB : Nat → AttemptOutcome := fun k =>
  match k with
  | 0 => .httpError 429 ("slow down".data)
  | _ => .success (some demoBadEnvelope)

theorem callAIService_malformedEnvelope_witness :
    callAIService 5 demoOutcomesB = ⟨.errEnvelope "IndexError", 2, [1]⟩ := by
  have h := callAIService_malformedEnvelope 5 demoOutcomesB 1 demoBadEnvelope
    "IndexError" (by decide) (by decide) rfl rfl
  rw [h]
  rfl

/-- C3: the extractor is total — on every input it returns either the
diagnostic record or the value parsed by one of the three strategies
(each strategy's parse exception being caught and treated as that
strategy's failure), and when every strategy fails it returns the
diagnostic record carrying the raw input text. -/
theorem extractJson_neverRaises (loads : PyStr → Option Json) (t : PyStr) :
    ((strategy1 loads t = none ∧ strategy2 loads t = none ∧
        strategy3 loads t = none) →
      extractJson loads t = errorRecord t) ∧
    (extractJson loads t = errorRecord t ∨
      strategy1 loads t = some (extractJson loads t) ∨
      strategy2 loads t = some (extractJson loads t) ∨
      strategy3 loads t = some (extractJson loads t)) := by
  constructor
  · rintro ⟨h1, h2, h3⟩
    exact extractJson_allFail loads t h1 h2 h3
  · cases h1 : strategy1 loads t with
    | some v =>
        refine Or.inr (Or.inl ?_)
        simp [extractJson, h1]
    | none =>
        cases h2 : strategy2 loads t with
        | some v =>
            refine Or.inr (Or.inr (Or.inl ?_))
            simp [extractJson, h1, h2]
        | none =>
            cases h3 : strategy3 loads t with
            | some v =>
                refine Or.inr (Or.inr (Or.inr ?_))
                simp [extractJson, h1, h2, h3]
            | none =>
                exact Or.inl (extractJson_allFail loads t h1 h2 h3)

/-- A parser that fails on every input: every loads call raises. -/
def loadsNone : PyStr → Option Json := fun _ => none

/-- A plain-prose reply with no fenced block and no braces. -/
def demoProse : PyStr := "Sorry, here is plain prose with no structure at all.".data

theorem extractJson_neverRaises_witness :
    extractJson loadsNone demoProse = errorRecord demoProse :=
  (extractJson_neverRaises loadsNone demoProse).1 ⟨rfl, rfl, rfl⟩

/-- Pydantic (v2, default config) validation of a `str` field: accepts
exactly JSON strings.  A non-string value passed where the source
expects text fails either at model validation or inside the sequence
matcher; both surface as a raised error, modelled here at the read. -/
def asStr : Json → Except PyErr PyStr
  | .str s => .ok s
  | _ => .error "ValidationError: str expected"

/-- Pydantic validation of an `int` field. -/
def asInt : Json → Except PyErr Int
  | .num n => .ok n
  | _ => .error "ValidationError: int expected"

/-- Python iteration over a value: elements of a list, one-character
strings of a string, keys of a dict, `TypeError` otherwise. -/
def pyIter : Json → Except PyErr (List Json)
  | .arr l => .ok l
  | .str s => .ok (s.map (fun c => .str [c]))
  | .obj fields => .ok (fields.map (fun kv => .str kv.1))
  | _ => .error "TypeError: not iterable"

/-- Message of the synthetic check issue (ai_proxy.py:384). -/
def checkFailMessage : PyStr := "AI服务响应格式异常，无法解析检查结果".data

/-- Suggestion of the synthetic check issue (ai_proxy.py:385). -/
def checkFailSuggestion : PyStr := "请重试或联系管理员检查AI服务配置".data

/-- Description of the synthetic polish change (ai_proxy.py:448). -/
def polishFailDescription : PyStr := "AI服务响应格式异常，无法解析润色结果".data

/-- Reason of the synthetic polish change (ai_proxy.py:449). -/
def polishFailReason : PyStr := "请重试或联系管理员检查AI服务配置".data

/-- The fixed unavailability message of Translate (ai_proxy.py:507). -/
def translateUnavailableMsg : PyStr := "翻译服务暂时不可用，请稍后重试".data

/-- The fixed unavailability message of Rewrite (ai_proxy.py:550). -/
def rewriteUnavailableMsg : PyStr := "改写服务暂时不可用，请稍后重试".data

/-- Embedding of models.api.CheckIssue. -/
structure CheckIssue where
  message : PyStr
  suggestion : PyStr
  range : List Int
  severity : PyStr
  category : PyStr
deriving DecidableEq

/-- Embedding of models.api.CheckResponse. -/
structure CheckResponse where
  diffs : List DiffSegment
  issues : List CheckIssue
  corrected_text : Option PyStr
deriving DecidableEq

/-- Embedding of models.api.PolishChange (five required str fields). -/
structure PolishChange where
  type : PyStr
  description : PyStr
  original_text : PyStr
  polished_text : PyStr
  reason : PyStr
deriving DecidableEq

/-- Embedding of models.api.PolishResponse (changes defaults to the
empty list when the field is omitted). -/
structure PolishResponse where
  diffs : List DiffSegment
  polished_text : PyStr
  changes : List PolishChange
deriving DecidableEq

/-- Embedding of models.api.TranslateRequest. -/
structure TranslateRequest where
  text : PyStr
  language : Option PyStr
  target_language : PyStr
  preserve_terminology : Bool
deriving DecidableEq

/-- Embedding of models.api.TranslateResponse. -/
structure TranslateResponse where
  diffs : List DiffSegment
  translated_text : PyStr
  source_language : PyStr
  target_language : PyStr
deriving DecidableEq

/-- Embedding of models.api.RewriteRequest (only the fields the parser
reads). -/
structure RewriteRequest where
  text : PyStr
  instruction : PyStr
  conversation_history : List Json
deriving Inhabited

/-- Embedding of models.api.RewriteResponse. -/
structure RewriteResponse where
  diffs : List DiffSegment
  rewritten_text : PyStr
  conversation_id : PyStr
deriving DecidableEq

/-- Python `opt or "auto"`: `None` and the empty string are falsy. -/
def pyOrStr (opt : Option PyStr) (dflt : PyStr) : PyStr :=
  match opt with
  | none => dflt
  | some s => if s == [] then dflt else s

/-- The synthetic issue built at ai_proxy.py:382-390 when extraction
failed. -/
def syntheticCheckIssue (originalText : PyStr) : CheckIssue :=
  ⟨checkFailMessage, checkFailSuggestion, [0, (originalText.length : Int)],
   "warning".data, "system".data⟩

/-- The issue mapping at ai_proxy.py:397-407: each field is read with
`.get` and a documented default. -/
def mapCheckIssue (originalText : PyStr) (issueData : Json) :
    Except PyErr CheckIssue := do
  let msg ← asStr (← pyGet issueData ("message".data) (.str []))
  let sugg ← asStr (← pyGet issueData ("suggestion".data) (.str []))
  let startIdx ← asInt (← pyGet issueData ("start".data) (.num 0))
  let endIdx ← asInt
    (← pyGet issueData ("end".data) (.num (originalText.length : Int)))
  let sev ← asStr (← pyGet issueData ("severity".data) (.str ("info".data)))
  let cat ← asStr (← pyGet issueData ("type".data) (.str ("general".data)))
  return ⟨msg, sugg, [startIdx, endIdx], sev, cat⟩

/-- The body of `AIProxyService._parse_check_response`
(ai_proxy.py:375-416), inside its try block. -/
def parseCheckBody (loads : PyStr → Option Json)
    (getOpcodes : PyStr → PyStr → Option (List Opcode))
    (aiResponse originalText : PyStr) : Except PyErr CheckResponse := do
  let responseData := extractJson loads aiResponse
  let hasError ← pyInStr ("error".data) responseData
  let pair ←
    if hasError then
      pure (originalText, [syntheticCheckIssue originalText])
    else do
      let corrected ← asStr
        (← pyGet responseData ("correctedText".data) (.str originalText))
      let issuesList ← pyIter (← pyGet responseData ("issues".data) (.arr []))
      let issues ← issuesList.mapM (mapCheckIssue originalText)
      pure (corrected, issues)
  let diffs := calculateDiff (getOpcodes originalText pair.1) originalText pair.1
  return ⟨diffs, pair.2, some pair.1⟩

/-- Embedding of `AIProxyService._parse_check_response`
(ai_proxy.py:364-425): any exception of the body is caught at
ai_proxy.py:418-425 and degraded to the basic response. -/
def parseCheckResponse (loads : PyStr → Option Json)
    (getOpcodes : PyStr → PyStr → Option (List Opcode))
    (aiResponse originalText : PyStr) : CheckResponse :=
  match parseCheckBody loads getOpcodes aiResponse originalText with
  | .ok r => r
  | .error _ => ⟨[⟨.equal, originalText⟩], [], some originalText⟩

/-- Pydantic construction of a PolishChange from keyword arguments
(default config: unknown keywords are ignored, every required field
must be supplied, `str` fields accept strings). -/
def mkPolishChange (kwargs : List (String × Json)) : Except PyErr PolishChange := do
  let t ← kwField kwargs "type"
  let d ← kwField kwargs "description"
  let o ← kwField kwargs "original_text"
  let p ← kwField kwargs "polished_text"
  let r ← kwField kwargs "reason"
  return ⟨t, d, o, p, r⟩
where
  /-- One required str field looked up among the keyword arguments. -/
  kwField (kwargs : List (String × Json)) (k : String) : Except PyErr PyStr :=
    match kwargs.find? (fun kv => kv.1 == k) with
    | some kv => asStr kv.2
    | none => .error "ValidationError: field required"

/-- The change mapping at ai_proxy.py:467-474 (this construction uses
the declared field names, so it validates). -/
def mapPolishChange (changeData : Json) : Except PyErr PolishChange := do
  let t ← asStr (← pyGet changeData ("type".data) (.str ("polish".data)))
  let d ← asStr (← pyGet changeData ("description".data) (.str []))
  let o ← asStr (← pyGet changeData ("originalText".data) (.str []))
  let p ← asStr (← pyGet changeData ("polishedText".data) (.str []))
  let r ← asStr (← pyGet changeData ("reason".data) (.str []))
  return ⟨t, d, o, p, r⟩

/-- The body of `AIProxyService._parse_polish_response`
(ai_proxy.py:438-480), inside its try block.  In the extraction-failure
branch the synthetic change at ai_proxy.py:445-456 is constructed with
keyword arguments start, end, originalText, polishedText and confidence
— none of which is a declared field of PolishChange — while omitting the
required fields original_text and polished_text, so the construction
raises; had it succeeded, the dict-style mapping loop at
ai_proxy.py:467-474 would raise AttributeError on the constructed
object.  Either way the branch raises. -/
def parsePolishBody (loads : PyStr → Option Json)
    (getOpcodes : PyStr → PyStr → Option (List Opcode))
    (aiResponse originalText : PyStr) : Except PyErr PolishResponse := do
  let responseData := extractJson loads aiResponse
  let hasError ← pyInStr ("error".data) responseData
  if hasError then
    let _synthetic ← mkPolishChange
      [("type", .str ("system".data)),
       ("description", .str polishFailDescription),
       ("reason", .str polishFailReason),
       ("start", .num 0),
       ("end", .num (originalText.length : Int)),
       ("originalText", .str originalText),
       ("polishedText", .str originalText),
       ("confidence", .num 0)]
    throw "AttributeError: PolishChange object has no attribute get"
  else
    let polished ← asStr
      (← pyGet responseData ("polishedText".data) (.str originalText))
    let changesList ← pyIter (← pyGet responseData ("changes".data) (.arr []))
    let diffs := calculateDiff (getOpcodes originalText polished)
      originalText polished
    let polishChanges ← changesList.mapM mapPolishChange
    return ⟨diffs, polished, polishChanges⟩

/-- Embedding of `AIProxyService._parse_polish_response`
(ai_proxy.py:427-488): any exception of the body is caught at
ai_proxy.py:482-488 and degraded to the basic response, whose omitted
changes field defaults to the empty list. -/
def parsePolishResponse (loads : PyStr → Option Json)
    (getOpcodes : PyStr → PyStr → Option (List Opcode))
    (aiResponse originalText : PyStr) : PolishResponse :=
  match parsePolishBody loads getOpcodes aiResponse originalText with
  | .ok r => r
  | .error _ => ⟨[⟨.equal, originalText⟩], originalText, []⟩

/-- The body of `AIProxyService._parse_translate_response`
(ai_proxy.py:501-520), inside its try block. -/
def parseTranslateBody (loads : PyStr → Option Json)
    (getOpcodes : PyStr → PyStr → Option (List Opcode))
    (aiResponse : PyStr) (request : TranslateRequest) :
    Except PyErr TranslateResponse := do
  let responseData := extractJson loads aiResponse
  let hasError ← pyInStr ("error".data) responseData
  let translated ←
    if hasError then
      pure translateUnavailableMsg
    else
      asStr (← pyGet responseData ("translatedText".data)
        (.str (pyStrip aiResponse)))
  let diffs := calculateDiff (getOpcodes request.text translated)
    request.text translated
  return ⟨diffs, translated, pyOrStr request.language ("auto".data),
    request.target_language⟩

/-- Embedding of `AIProxyService._parse_translate_response`
(ai_proxy.py:490-530): any exception of the body is caught at
ai_proxy.py:522-530 and degraded to the basic response, whose
translated text is the request text. -/
def parseTranslateResponse (loads : PyStr → Option Json)
    (getOpcodes : PyStr → PyStr → Option (List Opcode))
    (aiResponse : PyStr) (request : TranslateRequest) : TranslateResponse :=
  match parseTranslateBody loads getOpcodes aiResponse request with
  | .ok r => r
  | .error _ =>
      ⟨[⟨.equal, request.text⟩], request.text,
       pyOrStr request.language ("auto".data), request.target_language⟩

/-- The body of `AIProxyService._parse_rewrite_response`
(ai_proxy.py:544-565), inside its try block. -/
def parseRewriteBody (loads : PyStr → Option Json)
    (getOpcodes : PyStr → PyStr → Option (List Opcode))
    (aiResponse : PyStr) (request : RewriteRequest) (userId : PyStr) :
    Except PyErr RewriteResponse := do
  let responseData := extractJson loads aiResponse
  let hasError ← pyInStr ("error".data) responseData
  let rewritten ←
    if hasError then
      pure rewriteUnavailableMsg
    else
      asStr (← pyGet responseData ("rewrittenText".data)
        (.str (pyStrip aiResponse)))
  let diffs := calculateDiff (getOpcodes request.text rewritten)
    request.text rewritten
  let conversationId :=
    userId ++ "_".data ++ Nat.toDigits 10 request.conversation_history.length
  return ⟨diffs, rewritten, conversationId⟩

/-- Embedding of `AIProxyService._parse_rewrite_response`
(ai_proxy.py:532-574): any exception of the body is caught at
ai_proxy.py:567-574 and degraded to the basic response, whose rewritten
text is the request text. -/
def parseRewriteResponse (loads : PyStr → Option Json)
    (getOpcodes : PyStr → PyStr → Option (List Opcode))
    (aiResponse : PyStr) (request : RewriteRequest) (userId : PyStr) :
    RewriteResponse :=
  match parseRewriteBody loads getOpcodes aiResponse request userId with
  | .ok r => r
  | .error _ =>
      ⟨[⟨.equal, request.text⟩], request.text, userId ++ "_error".data⟩

/-- A worked matcher oracle: for identical strings difflib returns one
equal opcode spanning both. -/
def demoOracle : PyStr → PyStr → Option (List Opcode) := fun a b =>
  if a == b then some [⟨.equal, 0, a.length, 0, b.length⟩] else none

/-- C4: when the raw reply is unparsable by every extraction strategy,
Check assembly returns corrected text equal to the original text and
exactly one synthetic issue of category system, severity warning, the
fixed cannot-parse message, and range spanning the whole text. -/
theorem parseCheck_unparsable (loads : PyStr → Option Json)
    (getOpcodes : PyStr → PyStr → Option (List Opcode))
    (aiResponse originalText : PyStr)
    (h1 : strategy1 loads aiResponse = none)
    (h2 : strategy2 loads aiResponse = none)
    (h3 : strategy3 loads aiResponse = none) :
    parseCheckResponse loads getOpcodes aiResponse originalText =
      ⟨calculateDiff (getOpcodes originalText originalText)
         originalText originalText,
       [⟨checkFailMessage, checkFailSuggestion,
         [0, (originalText.length : Int)], "warning".data, "system".data⟩],
       some originalText⟩ := by
  have hx := extractJson_allFail loads aiResponse h1 h2 h3
  unfold parseCheckResponse parseCheckBody
  rw [hx]
  rfl

theorem parseCheck_unparsable_witness :
    parseCheckResponse loadsNone demoOracle demoProse ("abc".data) =
      ⟨[⟨.equal, "abc".data⟩],
       [⟨checkFailMessage, checkFailSuggestion, [0, 3],
         "warning".data, "system".data⟩],
       some ("abc".data)⟩ := by
  have h := parseCheck_unparsable loadsNone demoOracle demoProse ("abc".data)
    rfl rfl rfl
  rw [h]
  rfl

/-- C5: when the raw reply is unparsable by every extraction strategy,
Translate assembly returns the fixed unavailability message — not the
original request text — and echoes the language tags of the request. -/
theorem parseTranslate_unparsable (loads : PyStr → Option Json)
    (getOpcodes : PyStr → PyStr → Option (List Opcode))
    (aiResponse : PyStr) (request : TranslateRequest)
    (h1 : strategy1 loads aiResponse = none)
    (h2 : strategy2 loads aiResponse = none)
    (h3 : strategy3 loads aiResponse = none) :
    parseTranslateResponse loads getOpcodes aiResponse request =
      ⟨calculateDiff (getOpcodes request.text translateUnavailableMsg)
         request.text translateUnavailableMsg,
       translateUnavailableMsg, pyOrStr request.language ("auto".data),
       request.target_language⟩ ∧
    (request.text ≠ translateUnavailableMsg →
      (parseTranslateResponse loads getOpcodes aiResponse request).translated_text ≠
        request.text) := by
  have hx := extractJson_allFail loads aiResponse h1 h2 h3
  have hmain : parseTranslateResponse loads getOpcodes aiResponse request =
      ⟨calculateDiff (getOpcodes request.text translateUnavailableMsg)
         request.text translateUnavailableMsg,
       translateUnavailableMsg, pyOrStr request.language ("auto".data),
       request.target_language⟩ := by
    unfold parseTranslateResponse parseTranslateBody
    rw [hx]
    rfl
  refine ⟨hmain, fun hne => ?_⟩
  rw [hmain]
  exact fun hc => hne hc.symm

/-- A worked translate request. -/
def demoTranslateReq : TranslateRequest :=
  ⟨"hello world".data, some ("en".data), "zh".data, true⟩

theorem parseTranslate_unparsable_witness :
    parseTranslateResponse loadsNone demoOracle demoProse demoTranslateReq =
      ⟨[⟨.delete, "hello world".data⟩, ⟨.insert, translateUnavailableMsg⟩],
       translateUnavailableMsg, "en".data, "zh".data⟩ ∧
    "hello world".data ≠ translateUnavailableMsg := by
  have h := parseTranslate_unparsable loadsNone demoOracle demoProse
    demoTranslateReq rfl rfl rfl
  refine ⟨?_, by decide⟩
  rw [h.1]
  rfl

/-- C7 (behaviour at the failing input): when the raw reply is
unparsable by every extraction strategy, Polish assembly returns final
text equal to the original text but an EMPTY changes list: the synthetic
change of ai_proxy.py:445-456 is constructed with keyword names that do
not match the declared fields of PolishChange, the construction raises,
and the outer handler returns the basic response without changes. -/
theorem parsePolish_unparsable (loads : PyStr → Option Json)
    (getOpcodes : PyStr → PyStr → Option (List Opcode))
    (aiResponse originalText : PyStr)
    (h1 : strategy1 loads aiResponse = none)
    (h2 : strategy2 loads aiResponse = none)
    (h3 : strategy3 loads aiResponse = none) :
    parsePolishResponse loads getOpcodes aiResponse originalText =
      ⟨[⟨.equal, originalText⟩], originalText, []⟩ ∧
    (parsePolishResponse loads getOpcodes aiResponse originalText).changes = [] := by
  have hx := extractJson_allFail loads aiResponse h1 h2 h3
  have hmain : parsePolishResponse loads getOpcodes aiResponse originalText =
      ⟨[⟨.equal, originalText⟩], originalText, []⟩ := by
    unfold parsePolishResponse parsePolishBody
    rw [hx]
    rfl
  exact ⟨hmain, by rw [hmain]⟩

theorem parsePolish_unparsable_witness :
    parsePolishResponse loadsNone demoOracle demoProse ("abc".data) =
      ⟨[⟨.equal, "abc".data⟩], "abc".data, []⟩ :=
  (parsePolish_unparsable loadsNone demoOracle demoProse ("abc".data)
    rfl rfl rfl).1

/-- C10: whenever extraction produces a mapping with a top-level key
named error — however it was parsed, and even if the operation's
expected field is also present — every assembler takes the
extraction-failure branch: Check returns the original text with the one
synthetic system issue, Polish degrades to the original text with no
changes, Translate and Rewrite return their fixed unavailability
messages. -/
theorem assemblers_errorKey (loads : PyStr → Option Json)
    (getOpcodes : PyStr → PyStr → Option (List Opcode))
    (resp : PyStr) (kvs : List (PyStr × Json)) (orig : PyStr)
    (treq : TranslateRequest) (rreq : RewriteRequest) (uid : PyStr)
    (hx : extractJson loads resp = Json.obj kvs)
    (hkey : containsKeyB kvs ("error".data) = true) :
    parseCheckResponse loads getOpcodes resp orig =
      ⟨calculateDiff (getOpcodes orig orig) orig orig,
       [syntheticCheckIssue orig], some orig⟩ ∧
    parsePolishResponse loads getOpcodes resp orig =
      ⟨[⟨.equal, orig⟩], orig, []⟩ ∧
    (parseTranslateResponse loads getOpcodes resp treq).translated_text =
      translateUnavailableMsg ∧
    (parseRewriteResponse loads getOpcodes resp rreq uid).rewritten_text =
      rewriteUnavailableMsg := by
  have hin : pyInStr ("error".data) (Json.obj kvs) = .ok true := by
    simp [pyInStr, hkey]
  refine ⟨?_, ?_, ?_, ?_⟩
  · unfold parseCheckResponse parseCheckBody
    rw [hx]
    simp only [hin]
    rfl
  · unfold parsePolishResponse parsePolishBody
    rw [hx]
    simp only [hin]
    rfl
  · unfold parseTranslateResponse parseTranslateBody
    rw [hx]
    simp only [hin]
    rfl
  · unfold parseRewriteResponse parseRewriteBody
    rw [hx]
    simp only [hin]
    rfl

/-- A parser returning a record that carries both an error key and the
fields every operation would want. -/
def loadsErrorKey : PyStr → Option Json := fun _ =>
  some (.obj [("error".data, .str ("quota exceeded".data)),
              ("correctedText".data, .str ("FIXED".data)),
              ("polishedText".data, .str ("FIXED".data)),
              ("translatedText".data, .str ("FIXED".data)),
              ("rewrittenText".data, .str ("FIXED".data))])

/-- A worked rewrite request. -/
def demoRewriteReq : RewriteRequest := ⟨"hi there".data, "make formal".data, []⟩

theorem assemblers_errorKey_witness :
    parseCheckResponse loadsErrorKey demoOracle demoProse ("abc".data) =
      ⟨[⟨.equal, "abc".data⟩], [syntheticCheckIssue ("abc".data)],
       some ("abc".data)⟩ ∧
    parsePolishResponse loadsErrorKey demoOracle demoProse ("abc".data) =
      ⟨[⟨.equal, "abc".data⟩], "abc".data, []⟩ ∧
    (parseTranslateResponse loadsErrorKey demoOracle demoProse
        demoTranslateReq).translated_text = translateUnavailableMsg ∧
    (parseRewriteResponse loadsErrorKey demoOracle demoProse demoRewriteReq
        ("user1".data)).rewritten_text = rewriteUnavailableMsg := by
  have h := assemblers_errorKey loadsErrorKey demoOracle demoProse
    [("error".data, .str ("quota exceeded".data)),
     ("correctedText".data, .str ("FIXED".data)),
     ("polishedText".data, .str ("FIXED".data)),
     ("translatedText".data, .str ("FIXED".data)),
     ("rewrittenText".data, .str ("FIXED".data))]
    ("abc".data) demoTranslateReq demoRewriteReq ("user1".data) rfl rfl
  refine ⟨?_, h.2.1, h.2.2.1, h.2.2.2⟩
  rw [h.1]
  rfl

/-- A parser whose output makes the membership test raise: a bare JSON
number is not iterable, so the Python test of whether the record has an
error key raises TypeError inside the assembler's try block. -/
def loads42 : PyStr → Option Json := fun s =>
  if s == "42".data then some (.num 42) else none

/-- C6 counterexample: an internal exception inside Translate assembly
(here: the membership test on a non-dict record) is indeed caught, but
the degraded final text is the ORIGINAL request text, not the fixed
unavailability message that an outright extraction failure produces —
refuting the claim that both failures degrade identically. -/
theorem translate_internal_error_counterexample :
    parseTranslateBody loads42 demoOracle ("42".data) demoTranslateReq =
      .error "TypeError: argument not iterable" ∧
    (parseTranslateResponse loads42 demoOracle ("42".data)
        demoTranslateReq).translated_text = demoTranslateReq.text ∧
    demoTranslateReq.text ≠ translateUnavailableMsg :=
  ⟨rfl, rfl, by decide⟩

/-- C6 amended: any internal exception while mapping extracted fields is
caught inside the assembler and degrades the result, with final text
equal to the unchanged original text for ALL FOUR operations — which
for Translate and Rewrite differs from the fixed unavailability message
used on extraction failure. -/
theorem assemblers_catch_internal_errors (loads : PyStr → Option Json)
    (getOpcodes : PyStr → PyStr → Option (List Opcode))
    (resp orig : PyStr) (treq : TranslateRequest) (rreq : RewriteRequest)
    (uid : PyStr) :
    (∀ e, parseCheckBody loads getOpcodes resp orig = .error e →
      parseCheckResponse loads getOpcodes resp orig =
        ⟨[⟨.equal, orig⟩], [], some orig⟩) ∧
    (∀ e, parsePolishBody loads getOpcodes resp orig = .error e →
      parsePolishResponse loads getOpcodes resp orig =
        ⟨[⟨.equal, orig⟩], orig, []⟩) ∧
    (∀ e, parseTranslateBody loads getOpcodes resp treq = .error e →
      parseTranslateResponse loads getOpcodes resp treq =
        ⟨[⟨.equal, treq.text⟩], treq.text,
         pyOrStr treq.language ("auto".data), treq.target_language⟩) ∧
    (∀ e, parseRewriteBody loads getOpcodes resp rreq uid = .error e →
      parseRewriteResponse loads getOpcodes resp rreq uid =
        ⟨[⟨.equal, rreq.text⟩], rreq.text, uid ++ "_error".data⟩) := by
  refine ⟨fun e he => ?_, fun e he => ?_, fun e he => ?_, fun e he => ?_⟩
  · unfold parseCheckResponse
    rw [he]
  · unfold parsePolishResponse
    rw [he]
  · unfold parseTranslateResponse
    rw [he]
  · unfold parseRewriteResponse
    rw [he]

theorem assemblers_catch_internal_errors_witness :
    parseCheckResponse loads42 demoOracle ("42".data) ("abc".data) =
      ⟨[⟨.equal, "abc".data⟩], [], some ("abc".data)⟩ ∧
    parsePolishResponse loads42 demoOracle ("42".data) ("abc".data) =
      ⟨[⟨.equal, "abc".data⟩], "abc".data, []⟩ ∧
    parseTranslateResponse loads42 demoOracle ("42".data) demoTranslateReq =
      ⟨[⟨.equal, demoTranslateReq.text⟩], demoTranslateReq.text,
       "en".data, "zh".data⟩ ∧
    parseRewriteResponse loads42 demoOracle ("42".data) demoRewriteReq
        ("user1".data) =
      ⟨[⟨.equal, demoRewriteReq.text⟩], demoRewriteReq.text,
       "user1_error".data⟩ := by
  have h := assemblers_catch_internal_errors loads42 demoOracle ("42".data)
    ("abc".data) demoTranslateReq demoRewriteReq ("user1".data)
  exact ⟨h.1 "TypeError: argument not iterable" rfl,
         h.2.1 "TypeError: argument not iterable" rfl,
         h.2.2.1 "TypeError: argument not iterable" rfl,
         h.2.2.2 "TypeError: argument not iterable" rfl⟩
